import Mathlib

/-!
# Verification of the kitty `icat` kitten core (kittens/icat/main.py)

A shallow embedding of the protocol-transfer and placement core of the
`icat` kitten, together with proofs of the specification's claims about it.

Bytes are modelled as `Nat` values (< 256 where it matters), byte strings
as `List Nat`, and text as `List Char`.  Python's floor division `//` on
possibly-negative integers is modelled by `Int.fdiv`.
-/

set_option autoImplicit false

/-- Horizontal alignment option (`--align`, one of `center`, `left`, `right`). -/
inductive Align where
  | left
  | center
  | right
deriving DecidableEq, Repr

/-- Embedding of `calculate_in_cell_x_offset(width, cell_width, align)`:

```
if align == 'left': return 0
extra_pixels = width % cell_width
if not extra_pixels: return 0
if align == 'right': return cell_width - extra_pixels
return (cell_width - extra_pixels) // 2
``` -/
def calculate_in_cell_x_offset (width cell_width : Nat) (align : Align) : Nat :=
  if align = Align.left then 0
  else
    let extra_pixels := width % cell_width
    if extra_pixels = 0 then 0
    else if align = Align.right then cell_width - extra_pixels
    else (cell_width - extra_pixels) / 2

/-- Screen geometry as reported by the terminal: pixel width/height and
cell grid columns/rows (`screen_size()` in the source). -/
structure ScreenSize where
  width : Nat
  height : Nat
  cols : Nat
  rows : Nat
deriving DecidableEq, Repr

/-- A placement rectangle, produced by `parse_place`.  The fields are plain
Python integers, so they are modelled as `Int` (see `parse_place` below:
nothing in the code forces them to be non-negative). -/
structure Place where
  width : Int
  height : Int
  left : Int
  top : Int
deriving DecidableEq, Repr

/-- Cell pixel width `cw = int(ss.width / ss.cols)`: true division of two
non-negative integers truncated by `int`, i.e. `Nat` division. -/
def cell_pixel_width (ss : ScreenSize) : Nat :=
  ss.width / ss.cols

/-- Embedding of `num_of_cells_needed = int(ceil(width / cw))`, ceiling
division of the pixel width by the cell pixel width. -/
def num_of_cells_needed (width cw : Nat) : Nat :=
  (width + cw - 1) / cw

/-- The `extra_cells` computed inside `set_cursor_for_place`:

```
extra_cells = 0
if align == 'center':
    extra_cells = (place.width - num_of_cells_needed) // 2
elif align == 'right':
    extra_cells = place.width - num_of_cells_needed
```

Python `//` floors, hence `Int.fdiv`. -/
def extra_cells_for_place (place : Place) (cells : Nat) (align : Align) : Int :=
  match align with
  | Align.center => Int.fdiv (place.width - (cells : Int)) 2
  | Align.right => place.width - (cells : Int)
  | Align.left => 0

/-- Embedding of `set_cursor_for_place(place, cmd, width, height, align)`.
It returns the in-cell X offset written into `cmd['X']` and the (row, column)
arguments of the emitted cursor-position escape `ESC [ row ; col H`:
row `place.top + 1`, column `x + extra_cells` with `x = place.left + 1`. -/
def set_cursor_for_place (place : Place) (ss : ScreenSize) (width : Nat)
    (align : Align) : Nat × Int × Int :=
  let x : Int := place.left + 1
  let cw := cell_pixel_width ss
  let cells := num_of_cells_needed width cw
  (calculate_in_cell_x_offset width cw align,
    place.top + 1, x + extra_cells_for_place place cells align)

/-- A screen used for the concrete placement examples: 10 px × 10 px, 10
columns × 10 rows, so one cell is exactly 1 px wide. -/
def exampleScreen : ScreenSize := ⟨10, 10, 10, 10⟩

/-- Image metadata as returned by the external `identify` collaborator:
pixel width and height (color mode and format do not matter for the
scaling decision). -/
structure ImageMeta where
  width : Nat
  height : Nat
deriving DecidableEq, Repr

/-- The `available_width` in `process` when `args.place` is falsy: `ss.width`. -/
def available_width_noplace (ss : ScreenSize) : Nat := ss.width

/-- The `available_height` in `process` when `args.place` is falsy:
`10 * m.height`, ten times the *image's* pixel height. -/
def available_height_noplace (m : ImageMeta) : Nat := 10 * m.height

/-- The `needs_scaling` decision in `process` for the no-`Place` case:

```
needs_scaling = m.width > available_width or m.height > available_height
needs_scaling = needs_scaling or args.scale_up
``` -/
def needs_scaling_noplace (m : ImageMeta) (ss : ScreenSize) (scale_up : Bool) : Bool :=
  (decide (m.width > available_width_noplace ss) ||
      decide (m.height > available_height_noplace m)) ||
    scale_up

/-- The scaling decision as the specification words it: the available box is
the terminal pixel width by ten *screen* pixel heights. -/
def needs_scaling_noplace_speced (m : ImageMeta) (ss : ScreenSize) (scale_up : Bool) : Bool :=
  (decide (m.width > ss.width) || decide (m.height > 10 * ss.height)) || scale_up

/-- The standard base-64 alphabet as a map from a 6-bit value to the ASCII
code of its digit (`A`-`Z`, `a`-`z`, `0`-`9`, `+`, `/`), as used by
`base64.standard_b64encode`. -/
def b64Digit (v : Nat) : Nat :=
  if v < 26 then 65 + v
  else if v < 52 then 97 + (v - 26)
  else if v < 62 then 48 + (v - 52)
  else if v = 62 then 43
  else 47

/-- Inverse of `b64Digit` on ASCII codes of base-64 digits. -/
def b64Value (c : Nat) : Nat :=
  if 65 ≤ c ∧ c ≤ 90 then c - 65
  else if 97 ≤ c ∧ c ≤ 122 then c - 97 + 26
  else if 48 ≤ c ∧ c ≤ 57 then c - 48 + 52
  else if c = 43 then 62
  else 63

/-- Standard base-64 encoding of a byte string with `=` (ASCII 61) padding,
as performed by `base64.standard_b64encode`. -/
def b64encode : List Nat → List Nat
  | a :: b :: c :: rest =>
      b64Digit (a / 4) :: b64Digit (a % 4 * 16 + b / 16) ::
        b64Digit (b % 16 * 4 + c / 64) :: b64Digit (c % 64) :: b64encode rest
  | [a, b] => [b64Digit (a / 4), b64Digit (a % 4 * 16 + b / 16), b64Digit (b % 16 * 4), 61]
  | [a] => [b64Digit (a / 4), b64Digit (a % 4 * 16), 61, 61]
  | [] => []

/-- Standard base-64 decoding (the inverse direction used to state the
round-trip property; `=` is ASCII 61). -/
def b64decode : List Nat → List Nat
  | c1 :: c2 :: c3 :: c4 :: rest =>
      if c3 = 61 then [b64Value c1 * 4 + b64Value c2 / 16]
      else if c4 = 61 then
        [b64Value c1 * 4 + b64Value c2 / 16, b64Value c2 % 16 * 16 + b64Value c3 / 4]
      else
        (b64Value c1 * 4 + b64Value c2 / 16) ::
          (b64Value c2 % 16 * 16 + b64Value c3 / 4) ::
          (b64Value c3 % 4 * 64 + b64Value c4) :: b64decode rest
  | _ => []

/-- One frame emitted by `write_chunked`: the chunk payload (base-64 text
bytes that follow the control keys in the escape sequence) and the
`more-chunks` flag `m` written into the command. -/
structure Frame where
  payload : List Nat
  m : Nat
deriving DecidableEq, Repr

/-- The loop of `write_chunked`:

```
while data:
    chunk, data = data[:4096], data[4096:]
    m = 1 if data else 0
    cmd['m'] = m
    write_gr_cmd(cmd, chunk)
    cmd.clear()
```

modelled as the list of emitted frames, in emission order.  The chunk taken
from `a :: rest` is `data[:4096] = a :: rest.take 4095` and the remaining
data is `data[4096:] = rest.drop 4095`. -/
def chunkFrames (data : List Nat) : List Frame :=
  match data with
  | [] => []
  | a :: rest =>
      ⟨a :: rest.take 4095, if rest.drop 4095 = [] then 0 else 1⟩ ::
        chunkFrames (rest.drop 4095)
termination_by data.length
decreasing_by
  simp only [List.length_cons]
  have := List.length_drop 4095 rest
  omega

/-- Embedding of `write_chunked(cmd, data)`.  `fmt` is `cmd['f']`; when it is
not 100 the data is first compressed (`zlib.compress`, modelled by the
abstract function `compress`, with `cmd['o'] = 'z'` set), then the result is
base-64 encoded and emitted in frames of at most 4096 encoded bytes. -/
def write_chunked (fmt : Nat) (compress : List Nat → List Nat)
    (data : List Nat) : List Frame :=
  chunkFrames (b64encode (if fmt = 100 then data else compress data))

/-- The non-greedy payload match of the response pattern
`\033_Gi=([1|2]);(.+?)\033\\`: starting right after the `;`, consume the
shortest non-empty run of bytes, none of which is a newline (`.` does not
match `\n`), up to the first `ESC \` (27, 92) terminator.  Returns the
payload and the bytes following the terminator, or `none` when no such
match exists. -/
def grabPayload : List Nat → Option (List Nat × List Nat)
  | [] => none
  | x :: rest =>
      if x = 10 then none
      else
        match rest with
        | 27 :: 92 :: tail => some ([x], tail)
        | _ => (grabPayload rest).map fun pr => (x :: pr.1, pr.2)

/-- Attempt to match the full response pattern `\033_Gi=([1|2]);(.+?)\033\\`
at the head of the buffer: the literal header `ESC _ G i =` (27, 95, 71, 105,
61), one byte of the character class `[1|2]` (49, 124 or 50), the literal
`;` (59), then the non-greedy payload.  Returns the id byte, the payload and
the bytes after the match. -/
def matchAt (l : List Nat) : Option (Nat × List Nat × List Nat) :=
  match l with
  | e1 :: e2 :: e3 :: e4 :: e5 :: c :: e7 :: rest =>
      if e1 = 27 ∧ e2 = 95 ∧ e3 = 71 ∧ e4 = 105 ∧ e5 = 61 ∧ e7 = 59 ∧
          (c = 49 ∨ c = 124 ∨ c = 50) then
        (grabPayload rest).map fun pr => (c, pr.1, pr.2)
      else none
  | _ => none

/-- Embedding of `re.finditer` over the accumulated buffer: scan left to
right, taking the leftmost match at each point and continuing after its end
(matches never overlap).  `fuel` bounds the recursion; every step consumes at
least one byte, so `fuel = l.length` (see `findResponses`) is always
enough. -/
def findResponsesAux : Nat → List Nat → List (Nat × List Nat)
  | 0, _ => []
  | _ + 1, [] => []
  | fuel + 1, x :: rest =>
      match matchAt (x :: rest) with
      | some (c, pay, after) => (c, pay) :: findResponsesAux fuel after
      | none => findResponsesAux fuel rest

/-- All matches of the response pattern in the buffer, in order: the
`re.finditer` loop of `parse_responses`. -/
def findResponses (l : List Nat) : List (Nat × List Nat) :=
  findResponsesAux l.length l

/-- The payload the terminal answers on success: `b'OK'`. -/
def okBytes : List Nat := [79, 75]

/-- One step of `parse_responses`: keep only ids `1` (byte 49) and `2`
(byte 50) and record the first response per id (`if iid not in responses`),
as `responses[iid] = (m.group(2) == b'OK')`. -/
def insertResponse (acc : Option Bool × Option Bool) (m : Nat × List Nat) :
    Option Bool × Option Bool :=
  if m.1 = 49 then
    match acc.1 with
    | none => (some (m.2 == okBytes), acc.2)
    | some _ => acc
  else if m.1 = 50 then
    match acc.2 with
    | none => (acc.1, some (m.2 == okBytes))
    | some _ => acc
  else acc

/-- Embedding of `detect_support` restricted to what it computes from the
accumulated terminal input: the pair
(`supportsProtocol` = `responses.get(1, False)`,
 `supportsFileTransfer` = `bool(responses.get(2))`).
A missing response defaults to `false` in both cases; a timeout simply leaves
the buffer (and hence the responses) as they are, it is not an error. -/
def detect_support_model (received : List Nat) : Bool × Bool :=
  let rs := (findResponses received).foldl insertResponse (none, none)
  (rs.1.getD false, rs.2.getD false)

/-- Modelled from the spec (for comparison with the code): the payload part of
the claim's pattern `(.*?)` matches the shortest *possibly empty* newline-free
run up to the first `ESC \`. -/
def specGrabPayload : List Nat → Option (List Nat × List Nat)
  | 27 :: 92 :: tail => some ([], tail)
  | [] => none
  | x :: rest =>
      if x = 10 then none
      else (specGrabPayload rest).map fun pr => (x :: pr.1, pr.2)

/-- Modelled from the spec: match of the claim's pattern
`ESC _ G i = (1|2) ; (.*?) ESC \` at the head of the buffer. -/
def specMatchAt (l : List Nat) : Option (Nat × List Nat × List Nat) :=
  match l with
  | e1 :: e2 :: e3 :: e4 :: e5 :: c :: e7 :: rest =>
      if e1 = 27 ∧ e2 = 95 ∧ e3 = 71 ∧ e4 = 105 ∧ e5 = 61 ∧ e7 = 59 ∧
          (c = 49 ∨ c = 50) then
        (specGrabPayload rest).map fun pr => (c, pr.1, pr.2)
      else none
  | _ => none

/-- Modelled from the spec: scan for all matches of the claim's pattern. -/
def specFindResponsesAux : Nat → List Nat → List (Nat × List Nat)
  | 0, _ => []
  | _ + 1, [] => []
  | fuel + 1, x :: rest =>
      match specMatchAt (x :: rest) with
      | some (c, pay, after) => (c, pay) :: specFindResponsesAux fuel after
      | none => specFindResponsesAux fuel rest

/-- Modelled from the spec: the detector as the claim describes it, with the
`(.*?)` payload pattern. -/
def spec_detect_support_model (received : List Nat) : Bool × Bool :=
  let rs := (specFindResponsesAux received.length received).foldl insertResponse (none, none)
  (rs.1.getD false, rs.2.getD false)

/-- The buffer `ESC _ G i = 1 ; ESC \  ESC _ G i = 2 ; O K ESC \`: an
id-1 response with *empty* payload followed by an id-2 `OK` response. -/
def c6Buffer : List Nat :=
  [27, 95, 71, 105, 61, 49, 59, 27, 92,
   27, 95, 71, 105, 61, 50, 59, 79, 75, 27, 92]

/-- Decimal value of a non-empty all-digit string, else `none`. -/
def digitsVal (s : List Char) : Option Nat :=
  if s = [] then none
  else if s.all Char.isDigit then
    some (s.foldl (fun n c => n * 10 + (c.toNat - 48)) 0)
  else none

/-- The core of Python's `int(str)` as used by `parse_place`: an optional
sign followed by one or more decimal digits, any other string raising
`ValueError` (`none`).  Negative literals are accepted.  (Python's `int`
additionally strips surrounding whitespace and allows `_` digit separators;
those extra accepted forms are not modelled, they only widen the accepted
set and play no role in the claims.) -/
def pyInt (s : List Char) : Option Int :=
  match s with
  | [] => none
  | c :: rest =>
      if c = '-' then (digitsVal rest).map fun n => -(n : Int)
      else if c = '+' then (digitsVal rest).map fun n => (n : Int)
      else (digitsVal (c :: rest)).map fun n => (n : Int)

/-- Embedding of `raw.split(sep, 1)` unpacked into exactly two pieces: the
part before the first `sep` and everything after it; `none` (an unpacking
`ValueError`) when `sep` does not occur. -/
def splitAtFirst (sep : Char) : List Char → Option (List Char × List Char)
  | [] => none
  | c :: rest =>
      if c = sep then some ([], rest)
      else (splitAtFirst sep rest).map fun pr => (c :: pr.1, pr.2)

/-- Python's `s.split(sep)` for a one-character separator: the list of parts
between occurrences of `sep` (always non-empty). -/
def splitOnChar (sep : Char) : List Char → List (List Char)
  | [] => [[]]
  | c :: rest =>
      match splitOnChar sep rest with
      | [] => [[]]
      | p :: ps => if c = sep then [] :: p :: ps else (c :: p) :: ps

/-- Embedding of `w, h = map(int, s.split('x'))`: the split must produce
exactly two parts and both must parse as integers, otherwise the unpacking or
the `int` call raises (`none`). -/
def parseTwoInts (s : List Char) : Option (Int × Int) :=
  match splitOnChar 'x' s with
  | [a, b] =>
      match pyInt a, pyInt b with
      | some x, some y => some (x, y)
      | _, _ => none
  | _ => none

/-- Embedding of `parse_place(raw)`:

```
if raw:
    area, pos = raw.split('@', 1)
    w, h = map(int, area.split('x'))
    l, t = map(int, pos.split('x'))
    return namedtuple('Place', 'width height left top')(w, h, l, t)
```

`some none` is the falsy-input path (no place), `some (some p)` a parsed
Place, and `none` any exception (which `main` turns into
`SystemExit('Not a valid place specification: ...')` before any transfer). -/
def parse_place (raw : List Char) : Option (Option Place) :=
  if raw = [] then some none
  else
    match splitAtFirst '@' raw with
    | none => none
    | some (area, pos) =>
        match parseTwoInts area, parseTwoInts pos with
        | some (w, h), some (l, t) => some (some ⟨w, h, l, t⟩)
        | _, _ => none

/-- A (possibly signed) Python integer literal in the restricted sense of
`pyInt`. -/
def isPyIntLit (s : List Char) : Bool :=
  match s with
  | [] => false
  | c :: rest =>
      if c = '-' then !rest.isEmpty && rest.all Char.isDigit
      else if c = '+' then !rest.isEmpty && rest.all Char.isDigit
      else !(c :: rest).isEmpty && (c :: rest).all Char.isDigit

/-- An area or position that splits on `x` into exactly two integer
literals. -/
def validTwoInts (s : List Char) : Bool :=
  match splitOnChar 'x' s with
  | [a, b] => isPyIntLit a && isPyIntLit b
  | _ => false

/-- Structural validity of a place specification: one `@` splitting it into
an area and a position, each of which splits on `x` into exactly two
(possibly signed) integer literals. -/
def validPlaceSpec (raw : List Char) : Bool :=
  match splitAtFirst '@' raw with
  | none => false
  | some (area, pos) => validTwoInts area && validTwoInts pos

/-- The arity of `process`, declared `def process(path, args, is_tempfile)`:
three required parameters, no defaults. -/
def process_param_count : Nat := 3

/-- One call made by `main`'s per-item loop: the path argument passed to
`process` and the number of positional arguments supplied at the call
site. -/
structure ProcessCall (α : Type) where
  path : α
  argCount : Nat
deriving DecidableEq, Repr

/-- The calls `main`'s loop makes for one input item:

```
if os.path.isdir(item):
    for x in scan(item):
        process(item, args)
else:
    process(item, args, is_tempfile)
```

For a directory, one call per image file found by `scan`, each passing the
*directory* path `item` (not the scanned file `x`) and only two arguments;
for a non-directory, a single three-argument call on the item itself. -/
def main_item_calls {α : Type} (item : α) (isDir : Bool) (scanned : List α) :
    List (ProcessCall α) :=
  if isDir then scanned.map (fun _ => ⟨item, 2⟩) else [⟨item, 3⟩]

/-- C1 counterexample: at pixel width 1, cell width 4, right alignment the
function returns `4 - 1 % 4 = 3`, not the remainder `1 % 4 = 1` that the claim
predicts (and at center it returns `3 / 2 = 1`, not `(1 % 4) / 2 = 0`). -/
theorem c1_counterexample :
    calculate_in_cell_x_offset 1 4 Align.right = 3 ∧ 3 ≠ 1 % 4 ∧
      calculate_in_cell_x_offset 1 4 Align.center = 1 ∧ 1 ≠ (1 % 4) / 2 := by
  refine ⟨rfl, by decide, rfl, by decide⟩

/-- C1 (amended): for every pixel width `W`, cell pixel width `C > 0` and
alignment, the in-cell offset is 0 for left alignment or when `C` divides `W`;
otherwise it is the *complement* of the remainder, `C - W % C`, for right
alignment, and `(C - W % C) / 2` (integer division rounding down) for center
alignment. -/
theorem c1_in_cell_x_offset_cases (W C : Nat) (hC : 0 < C) (align : Align) :
    ((align = Align.left ∨ W % C = 0) → calculate_in_cell_x_offset W C align = 0) ∧
      (W % C ≠ 0 →
        (align = Align.right → calculate_in_cell_x_offset W C align = C - W % C) ∧
        (align = Align.center → calculate_in_cell_x_offset W C align = (C - W % C) / 2)) := by
  unfold calculate_in_cell_x_offset
  cases align <;> simp <;> omega

/-- Witness for `c1_in_cell_x_offset_cases` at `W = 1`, `C = 4`, right alignment. -/
theorem c1_in_cell_x_offset_cases_witness :
    calculate_in_cell_x_offset 1 4 Align.right = 4 - 1 % 4 :=
  (c1_in_cell_x_offset_cases 1 4 (by decide) Align.right).2 (by decide) |>.1 rfl

/-- C3 counterexample: with rectangle `8x4@2x3`, a 5-px image on a 1-px-per-cell
screen (so 5 cells are needed) and center alignment, the emitted escape targets
row 4 and column `2 + 1 + (8 - 5) // 2 = 4`, not column 5 as the claim states. -/
theorem c3_counterexample :
    (set_cursor_for_place ⟨8, 4, 2, 3⟩ exampleScreen 5 Align.center).2 = (4, 4) ∧
      ((4 : Int) ≠ 5) := by
  refine ⟨rfl, by decide⟩

/-- C3 (amended): for rectangle `8x4@2x3` and an image needing 5 cells at
center alignment, the cursor moves to row `3 + 1 = 4` and column
`2 + 1 + ⌊(8 - 5) / 2⌋ = 4` (1-indexed); the claim's formula has one `+1` too
many. -/
theorem c3_place_example :
    (set_cursor_for_place ⟨8, 4, 2, 3⟩ exampleScreen 5 Align.center).2 =
      (3 + 1, 2 + 1 + Int.fdiv (8 - 5) 2) := rfl

/-- C8 counterexample: for rectangle `3x4@2x3` (width 3 < 5 cells needed) at
*left* alignment, `extra_cells` is `0`, not negative, so the claim's
"extraCells is negative" fails when the alignment is left. -/
theorem c8_counterexample :
    extra_cells_for_place ⟨3, 4, 2, 3⟩ 5 Align.left = 0 ∧ ¬((0 : Int) < 0) := by
  refine ⟨rfl, by decide⟩

/-- C8 (amended): for every Place whose width is smaller than the image's cell
footprint and center or right alignment, `extra_cells` is negative and
`set_cursor_for_place` (a total function: no error, no clamping) targets
column `place.left + 1 + extra_cells`, left of the rectangle's nominal origin;
at left alignment `extra_cells` is 0 and the column is the nominal origin. -/
theorem c8_narrow_place (place : Place) (ss : ScreenSize) (width : Nat)
    (align : Align)
    (hw : place.width < (num_of_cells_needed width (cell_pixel_width ss) : Int)) :
    (align ≠ Align.left →
      extra_cells_for_place place (num_of_cells_needed width (cell_pixel_width ss)) align < 0) ∧
      (set_cursor_for_place place ss width align).2.2 =
        place.left + 1 +
          extra_cells_for_place place (num_of_cells_needed width (cell_pixel_width ss)) align := by
  constructor
  · intro hne
    cases align with
    | left => exact absurd rfl hne
    | center =>
        simp only [extra_cells_for_place]
        rw [Int.fdiv_eq_ediv _ (by decide)]
        exact Int.ediv_neg' (by omega) (by decide)
    | right =>
        simp only [extra_cells_for_place]
        omega
  · rfl

/-- Witness for `c8_narrow_place`: rectangle `3x4@2x3`, 5-px image on the
1-px-per-cell screen (5 cells needed), center alignment: `extra_cells = -1`
and the cursor column is `2 + 1 + (-1) = 2`. -/
theorem c8_narrow_place_witness :
    extra_cells_for_place ⟨3, 4, 2, 3⟩
        (num_of_cells_needed 5 (cell_pixel_width exampleScreen)) Align.center < 0 ∧
      (set_cursor_for_place ⟨3, 4, 2, 3⟩ exampleScreen 5 Align.center).2.2 = 2 := by
  have h := c8_narrow_place ⟨3, 4, 2, 3⟩ exampleScreen 5 Align.center (by decide)
  exact ⟨h.1 (by decide), by rw [h.2]; decide⟩

/-- C2 counterexample: on an 800×600 px screen with a 100×10000 px image and
no scale-up flag, the code does not scale (its vertical budget is
`10 * 10000 = 100000` px, ten times the image height), while the claim's box
of ten screen heights (6000 px) demands scaling. -/
theorem c2_counterexample :
    needs_scaling_noplace ⟨100, 10000⟩ ⟨800, 600, 80, 24⟩ false = false ∧
      needs_scaling_noplace_speced ⟨100, 10000⟩ ⟨800, 600, 80, 24⟩ false = true := by
  refine ⟨rfl, rfl⟩

/-- C2 (amended): with no explicit Place the available box is the terminal's
pixel width by ten times the *image's own* pixel height, so the height bound
can never trigger on its own: `needs_scaling` is true exactly when the image's
pixel width exceeds the terminal's pixel width or the scale-up flag is set. -/
theorem c2_needs_scaling_noplace_eq (m : ImageMeta) (ss : ScreenSize) (scale_up : Bool) :
    needs_scaling_noplace m ss scale_up =
      (decide (m.width > available_width_noplace ss) || scale_up) := by
  unfold needs_scaling_noplace available_height_noplace
  have h : ¬(m.height > 10 * m.height) := by omega
  simp [h]

theorem b64Value_b64Digit {v : Nat} (h : v < 64) : b64Value (b64Digit v) = v := by
  revert h; revert v; decide

theorem b64Digit_ne_pad {v : Nat} (h : v < 64) : b64Digit v ≠ 61 := by
  revert h; revert v; decide

/-- Base-64 round trip: decoding the encoding of any byte string gives it
back. -/
theorem b64decode_b64encode : ∀ (l : List Nat), (∀ x ∈ l, x < 256) →
    b64decode (b64encode l) = l
  | [], _ => by simp [b64encode, b64decode]
  | [a], h => by
      have ha : a < 256 := h a (by simp)
      have h1 : a / 4 < 64 := by omega
      have h2 : a % 4 * 16 < 64 := by omega
      have e1 : a / 4 * 4 + a % 4 * 16 / 16 = a := by omega
      simp only [b64encode, b64decode]
      simp [b64Value_b64Digit h1, b64Value_b64Digit h2, e1]
      all_goals omega
  | [a, b], h => by
      have ha : a < 256 := h a (by simp)
      have hb : b < 256 := h b (by simp)
      have h1 : a / 4 < 64 := by omega
      have h2 : a % 4 * 16 + b / 16 < 64 := by omega
      have h3 : b % 16 * 4 < 64 := by omega
      have e1 : a / 4 * 4 + (a % 4 * 16 + b / 16) / 16 = a := by omega
      have e2 : (a % 4 * 16 + b / 16) % 16 * 16 + b % 16 * 4 / 4 = b := by omega
      simp only [b64encode, b64decode]
      simp [b64Digit_ne_pad h3, b64Value_b64Digit h1, b64Value_b64Digit h2,
        b64Value_b64Digit h3, e1, e2]
      all_goals omega
  | a :: b :: c :: rest, h => by
      have ha : a < 256 := h a (by simp)
      have hb : b < 256 := h b (by simp)
      have hc : c < 256 := h c (by simp)
      have h1 : a / 4 < 64 := by omega
      have h2 : a % 4 * 16 + b / 16 < 64 := by omega
      have h3 : b % 16 * 4 + c / 64 < 64 := by omega
      have h4 : c % 64 < 64 := by omega
      have e1 : a / 4 * 4 + (a % 4 * 16 + b / 16) / 16 = a := by omega
      have e2 : (a % 4 * 16 + b / 16) % 16 * 16 + (b % 16 * 4 + c / 64) / 4 = b := by omega
      have e3 : (b % 16 * 4 + c / 64) % 4 * 64 + c % 64 = c := by omega
      have ih := b64decode_b64encode rest (fun x hx => h x (by simp [hx]))
      simp only [b64encode, b64decode]
      simp [b64Digit_ne_pad h3, b64Digit_ne_pad h4, b64Value_b64Digit h1,
        b64Value_b64Digit h2, b64Value_b64Digit h3, b64Value_b64Digit h4, e1, e2, e3, ih]

theorem chunkFrames_join (data : List Nat) :
    ((chunkFrames data).map Frame.payload).flatten = data := by
  induction data using chunkFrames.induct with
  | case1 => simp [chunkFrames]
  | case2 a rest ih =>
      rw [chunkFrames]
      simp only [List.map_cons, List.flatten_cons, ih]
      simp [List.cons_append, List.take_append_drop]

/-- C4: Chunk Encoder round trip.  For every byte buffer and any compression
function with a left inverse (as `zlib.decompress` is for `zlib.compress`),
base-64-decoding the concatenation, in emission order, of all frame payloads
emitted by `write_chunked`, and then decompressing when the compression path
was taken (`fmt ≠ 100`), reproduces the input buffer exactly. -/
theorem c4_write_chunked_roundtrip (fmt : Nat)
    (compress decompress : List Nat → List Nat) (data : List Nat)
    (hinv : ∀ d, decompress (compress d) = d)
    (hdata : ∀ x ∈ data, x < 256)
    (hcomp : ∀ d, (∀ x ∈ d, x < 256) → ∀ x ∈ compress d, x < 256) :
    (if fmt = 100 then
        b64decode (((write_chunked fmt compress data).map Frame.payload).flatten)
      else
        decompress (b64decode (((write_chunked fmt compress data).map Frame.payload).flatten)))
      = data := by
  unfold write_chunked
  rw [chunkFrames_join]
  by_cases hf : fmt = 100
  · rw [if_pos hf, if_pos hf, b64decode_b64encode data hdata]
  · rw [if_neg hf, if_neg hf, b64decode_b64encode (compress data) (hcomp data hdata), hinv]

/-- Witness for `c4_write_chunked_roundtrip`: `fmt = 100` (no compression) and
the three-byte buffer `[1, 2, 3]`, with the identity as the (unused)
compression pair. -/
theorem c4_write_chunked_roundtrip_witness :
    (if 100 = 100 then
        b64decode (((write_chunked 100 (fun d => d) [1, 2, 3]).map Frame.payload).flatten)
      else
        (fun d => d)
          (b64decode (((write_chunked 100 (fun d => d) [1, 2, 3]).map Frame.payload).flatten)))
      = [1, 2, 3] :=
  c4_write_chunked_roundtrip 100 (fun d => d) (fun d => d) [1, 2, 3]
    (fun _ => rfl) (by decide) (fun _ hd => hd)

theorem b64encode_ne_nil : ∀ {l : List Nat}, l ≠ [] → b64encode l ≠ []
  | [], h => absurd rfl h
  | [_], _ => by simp [b64encode]
  | [_, _], _ => by simp [b64encode]
  | _ :: _ :: _ :: _, _ => by simp [b64encode]

theorem chunkFrames_ne_nil {l : List Nat} (h : l ≠ []) : chunkFrames l ≠ [] := by
  match l with
  | [] => exact absurd rfl h
  | a :: rest => rw [chunkFrames]; simp

/-- The `more-chunks` discipline of the chunking loop: on a non-empty encoded
string, exactly one frame has `m = 0`, it is the last one, all earlier frames
have `m = 1`, and every frame payload has at most 4096 bytes. -/
theorem chunkFrames_flags : ∀ (l : List Nat), l ≠ [] →
    (chunkFrames l).countP (fun f => f.m == 0) = 1 ∧
      ((chunkFrames l).getLast?).map Frame.m = some 0 ∧
      (∀ f ∈ (chunkFrames l).dropLast, f.m = 1) ∧
      (∀ f ∈ chunkFrames l, f.payload.length ≤ 4096) := by
  intro l hl
  induction l using chunkFrames.induct with
  | case1 => exact absurd rfl hl
  | case2 a rest ih =>
      rw [chunkFrames]
      by_cases hrem : rest.drop 4095 = []
      · rw [if_pos hrem, hrem, chunkFrames]
        refine ⟨rfl, rfl, by simp, ?_⟩
        intro f hf
        simp only [List.mem_singleton] at hf
        subst hf
        simp only [List.length_cons, List.length_take]
        omega
      · have ⟨ih1, ih2, ih3, ih4⟩ := ih hrem
        have hne := chunkFrames_ne_nil hrem
        rw [if_neg hrem]
        refine ⟨?_, ?_, ?_, ?_⟩
        · rw [List.countP_cons]
          simp only [ih1]
          norm_num
        · rcases Option.map_eq_some'.mp ih2 with ⟨f0, hf0, hf0m⟩
          rw [List.getLast?_cons, hf0]
          simpa using hf0m
        · intro f hf
          rw [List.dropLast_cons_of_ne_nil hne] at hf
          rcases List.mem_cons.mp hf with h | h
          · subst h; rfl
          · exact ih3 f h
        · intro f hf
          rcases List.mem_cons.mp hf with h | h
          · subst h
            simp only [List.length_cons, List.length_take]
            omega
          · exact ih4 f h

/-- C5 counterexample: for the empty input buffer with `fmt = 100` (the
uncompressed path, e.g. an unscaled PNG) the base-64 text is empty, the
`while data` loop never runs, and *no* frame at all is emitted — in particular
no frame carries `m = 0`, contradicting "exactly one". -/
theorem c5_counterexample :
    write_chunked 100 (fun d => d) [] = [] ∧
      (write_chunked 100 (fun d => d) []).countP (fun f => f.m == 0) = 0 := by
  have h : write_chunked 100 (fun d => d) [] = [] := by
    unfold write_chunked
    rw [if_pos rfl, show b64encode [] = [] from rfl, chunkFrames]
  exact ⟨h, by rw [h]; rfl⟩

/-- C5 (amended): whenever the byte string to be encoded (the input, after
compression when `fmt ≠ 100`) is non-empty — in particular for every non-empty
input buffer — exactly one emitted frame carries `m = 0`, that frame is the
last one, every earlier frame carries `m = 1`, and no frame payload exceeds
4096 encoded bytes.  (For an empty encoded string no frame is emitted at
all.) -/
theorem c5_write_chunked_flags (fmt : Nat) (compress : List Nat → List Nat)
    (data : List Nat) (h : (if fmt = 100 then data else compress data) ≠ []) :
    (write_chunked fmt compress data).countP (fun f => f.m == 0) = 1 ∧
      ((write_chunked fmt compress data).getLast?).map Frame.m = some 0 ∧
      (∀ f ∈ (write_chunked fmt compress data).dropLast, f.m = 1) ∧
      (∀ f ∈ write_chunked fmt compress data, f.payload.length ≤ 4096) := by
  unfold write_chunked
  exact chunkFrames_flags _ (b64encode_ne_nil h)

/-- Witness for `c5_write_chunked_flags`: the one-byte buffer `[1]` with
`fmt = 100`. -/
theorem c5_write_chunked_flags_witness :
    (write_chunked 100 (fun d => d) [1]).countP (fun f => f.m == 0) = 1 :=
  (c5_write_chunked_flags 100 (fun d => d) [1] (by decide)).1

/-- C6 counterexample: on `c6Buffer` the code's `(.+?)` payload cannot be
empty, so the first match swallows everything up to the *final* `ESC \` as
the id-1 payload and the id-2 `OK` response is never seen: the code reports
(false, false).  Under the claim's `(.*?)` pattern the empty id-1 payload
and the id-2 `OK` would be recorded separately, giving
`supportsFileTransfer = true`. -/
theorem c6_counterexample :
    detect_support_model c6Buffer = (false, false) ∧
      spec_detect_support_model c6Buffer = (false, true) := by
  refine ⟨by decide, by decide⟩

theorem foldl_insertResponse_fst (ms : List (Nat × List Nat)) :
    ∀ acc : Option Bool × Option Bool,
      (ms.foldl insertResponse acc).1 =
        match acc.1 with
        | some b => some b
        | none => (ms.find? fun m => m.1 == 49).map fun m => m.2 == okBytes := by
  induction ms with
  | nil =>
      intro acc
      cases h : acc.1 <;> simp [List.foldl, h]
  | cons m tl ih =>
      intro acc
      rw [List.foldl_cons, ih]
      by_cases h49 : m.1 = 49
      · rw [List.find?_cons_of_pos _ (by simp [h49])]
        cases h : acc.1 <;> simp [insertResponse, h49, h]
      · by_cases h50 : m.1 = 50
        · rw [List.find?_cons_of_neg _ (by simp [h49])]
          cases h : acc.2 <;> cases h1 : acc.1 <;>
            simp [insertResponse, h49, h50, h, h1]
        · rw [List.find?_cons_of_neg _ (by simp [h49])]
          cases h1 : acc.1 <;> simp [insertResponse, h49, h50, h1]

theorem foldl_insertResponse_snd (ms : List (Nat × List Nat)) :
    ∀ acc : Option Bool × Option Bool,
      (ms.foldl insertResponse acc).2 =
        match acc.2 with
        | some b => some b
        | none => (ms.find? fun m => m.1 == 50).map fun m => m.2 == okBytes := by
  induction ms with
  | nil =>
      intro acc
      cases h : acc.2 <;> simp [List.foldl, h]
  | cons m tl ih =>
      intro acc
      rw [List.foldl_cons, ih]
      by_cases h50 : m.1 = 50
      · have h49 : ¬m.1 = 49 := by omega
        rw [List.find?_cons_of_pos _ (by simp [h50])]
        cases h : acc.2 <;> simp [insertResponse, h49, h50, h]
      · by_cases h49 : m.1 = 49
        · rw [List.find?_cons_of_neg _ (by simp [h50])]
          cases h : acc.1 <;> cases h2 : acc.2 <;>
            simp [insertResponse, h49, h50, h, h2]
        · rw [List.find?_cons_of_neg _ (by simp [h50])]
          cases h2 : acc.2 <;> simp [insertResponse, h49, h50, h2]

/-- C6 (amended): for every accumulated input buffer the detector records,
per probe id, only the *first* frame matching the code's pattern
`ESC _ G i = [1|2] ; (.+?) ESC \` — payload non-empty and newline-free,
matches taken left to right and non-overlapping, ids other than `1`/`2`
discarded after matching — and derives `supportsProtocol` (resp.
`supportsFileTransfer`) as "the first id-1 (resp. id-2) payload equals
`OK`", defaulting to `false` when there is no such response. -/
theorem c6_detect_support_first_only (received : List Nat) :
    detect_support_model received =
      ((((findResponses received).find? fun m => m.1 == 49).map
          fun m => m.2 == okBytes).getD false,
        (((findResponses received).find? fun m => m.1 == 50).map
          fun m => m.2 == okBytes).getD false) := by
  unfold detect_support_model
  simp only []
  rw [foldl_insertResponse_fst, foldl_insertResponse_snd]

/-- C7: if no response frame is found in the accumulated buffer — in
particular when the terminal never answers and the deadline elapses with the
buffer still empty — the detector returns `(false, false)`: both capability
flags are `false` and the result is an ordinary value, not an error. -/
theorem c7_timeout_negative (received : List Nat)
    (h : findResponses received = []) :
    detect_support_model received = (false, false) := by
  unfold detect_support_model
  rw [h]
  rfl

/-- Witness for `c7_timeout_negative`: the empty buffer. -/
theorem c7_timeout_negative_witness : detect_support_model [] = (false, false) :=
  c7_timeout_negative [] (by decide)

/-- C9 counterexample: `parse_place("-3x4@2x3")` succeeds and produces a Place
with *negative* width `-3`: the fields are not validated to be
non-negative. -/
theorem c9_counterexample :
    parse_place ['-', '3', 'x', '4', '@', '2', 'x', '3'] = some (some ⟨-3, 4, 2, 3⟩) ∧
      (-3 : Int) < 0 := by
  refine ⟨by decide, by decide⟩

theorem digitsVal_isSome (s : List Char) :
    (digitsVal s).isSome = (!s.isEmpty && s.all Char.isDigit) := by
  unfold digitsVal
  by_cases h : s = []
  · simp [h]
  · by_cases hd : s.all Char.isDigit <;> simp [h, hd]

theorem pyInt_isSome (s : List Char) : (pyInt s).isSome = isPyIntLit s := by
  match s with
  | [] => rfl
  | c :: rest =>
      simp only [pyInt, isPyIntLit]
      by_cases hm : c = '-' <;> by_cases hp : c = '+' <;>
        simp only [hm, hp, if_pos, if_neg, if_true, if_false, reduceIte] <;>
        [skip; skip; skip; skip] <;> rw [← digitsVal_isSome] <;>
        [cases digitsVal rest <;> simp;
         cases digitsVal rest <;> simp;
         cases digitsVal rest <;> simp;
         cases digitsVal (c :: rest) <;> simp]

theorem parseTwoInts_isSome (s : List Char) :
    (parseTwoInts s).isSome = validTwoInts s := by
  unfold parseTwoInts validTwoInts
  cases h : splitOnChar 'x' s with
  | nil => rfl
  | cons a tl =>
      cases tl with
      | nil => rfl
      | cons b tl2 =>
          cases tl2 with
          | nil =>
              dsimp only
              rw [← pyInt_isSome, ← pyInt_isSome]
              cases pyInt a <;> cases pyInt b <;> simp
          | cons c tl3 => rfl

/-- C9 (amended): `parse_place` produces a Place exactly for the non-empty
specifications of the validated `WxH@LxT` shape — one `@`, each side split by
`x` into exactly two integer literals — and any other non-empty specification
raises (is rejected in `main` before any transfer begins).  The four fields
are the parsed integers and may be *negative*: Python's `int` accepts signed
literals and the code never checks a sign. -/
theorem c9_place_construction (raw : List Char) :
    (∃ p, parse_place raw = some (some p)) ↔ (raw ≠ [] ∧ validPlaceSpec raw = true) := by
  by_cases hraw : raw = []
  · subst hraw
    simp [parse_place]
  · unfold parse_place validPlaceSpec
    rw [if_neg hraw]
    simp only [ne_eq, hraw, not_false_eq_true, true_and]
    cases hs : splitAtFirst '@' raw with
    | none => simp
    | some pr =>
        obtain ⟨area, pos⟩ := pr
        dsimp only
        rw [← parseTwoInts_isSome, ← parseTwoInts_isSome]
        cases parseTwoInts area with
        | none => simp
        | some wh =>
            obtain ⟨w, h⟩ := wh
            cases parseTwoInts pos with
            | none => simp
            | some lt =>
                obtain ⟨l, t⟩ := lt
                simp

/-- C10: for a directory input item, `main` issues one `process` call per
scanned image file, but every one of those calls passes the directory path
itself — never a scanned file path different from it — and supplies only two
arguments to the three-parameter `process` (a `TypeError` at run time), so
the image files discovered inside a directory are never themselves
transferred. -/
theorem c10_directory_loop {α : Type} (item : α) (scanned : List α) :
    (main_item_calls item true scanned).length = scanned.length ∧
      (∀ c ∈ main_item_calls item true scanned,
        c.path = item ∧ c.argCount = 2 ∧ c.argCount ≠ process_param_count) ∧
      (∀ f ∈ scanned, f ≠ item → ∀ c ∈ main_item_calls item true scanned, c.path ≠ f) := by
  refine ⟨by simp [main_item_calls], ?_, ?_⟩
  · intro c hc
    have hc' : c ∈ scanned.map (fun _ => (⟨item, 2⟩ : ProcessCall α)) := by
      simpa [main_item_calls] using hc
    obtain ⟨x, hx1, hx2⟩ := List.mem_map.mp hc'
    subst hx2
    exact ⟨rfl, rfl, by simp [process_param_count]⟩
  · intro f _ hf c hc
    have hc' : c ∈ scanned.map (fun _ => (⟨item, 2⟩ : ProcessCall α)) := by
      simpa [main_item_calls] using hc
    obtain ⟨x, hx1, hx2⟩ := List.mem_map.mp hc'
    subst hx2
    simpa using fun h => hf h.symm

/-- Witness for `c10_directory_loop`: directory `"d"` containing one scanned
image file `"d/a.png"`. -/
theorem c10_directory_loop_witness :
    (main_item_calls "d" true ["d/a.png"]).length = 1 ∧
      ∀ c ∈ main_item_calls "d" true ["d/a.png"],
        c.path = "d" ∧ c.argCount = 2 ∧ c.argCount ≠ process_param_count :=
  ⟨(c10_directory_loop "d" ["d/a.png"]).1, (c10_directory_loop "d" ["d/a.png"]).2.1⟩
